import Mathlib

/-!
Verification of the movement-and-collision core of the `avgame` repository.

The definitions below are a shallow embedding of the TypeScript source:
* `Vec3` mirrors the `THREE.Vector3` operations the code uses
  (`add`, `sub`, `multiplyScalar`, `dot`, `length`, `lengthSq`, `normalize`,
  `distanceToSquared`), over the real numbers;
* `AABB`, `Capsule`, `closestPointOnAABB`, `sphereIntersectsAABB`,
  `capsuleIntersectsAABB`, `checkCapsuleCollision`, `resolveCollisions`
  are translated from the `CollisionSystem` class;
* `updateVelocity` is the accelerate/friction/clamp phase of `Player.update`;
* `gameLoopFrame` is one iteration of the fixed-timestep loop in `GameLoop.ts`;
* the `ECSWorld` definitions translate the deferred-destruction logic of
  `src/ecs/world.ts` (the underlying `bitecs` entity operations, which are an
  external package, are modelled from the specification);
* `Heap` and `resolveCollisionsRef` model the `THREE.Vector3` object graph
  with explicit references, to state which objects `resolveCollisions`
  mutates and which it leaves untouched.
-/

set_option maxHeartbeats 1000000

open scoped Classical

noncomputable section

/-- Three-component real vector, mirroring `THREE.Vector3`. -/
structure Vec3 where
  x : ℝ
  y : ℝ
  z : ℝ

namespace Vec3

/-- Componentwise sum, `THREE.Vector3.add` / `addVectors`. -/
def add (a b : Vec3) : Vec3 := ⟨a.x + b.x, a.y + b.y, a.z + b.z⟩

/-- Componentwise difference, `THREE.Vector3.sub` / `subVectors`. -/
def sub (a b : Vec3) : Vec3 := ⟨a.x - b.x, a.y - b.y, a.z - b.z⟩

/-- Scalar multiple, `THREE.Vector3.multiplyScalar`. -/
def multiplyScalar (a : Vec3) (s : ℝ) : Vec3 := ⟨a.x * s, a.y * s, a.z * s⟩

/-- Dot product, `THREE.Vector3.dot`. -/
def dot (a b : Vec3) : ℝ := a.x * b.x + a.y * b.y + a.z * b.z

/-- Squared length, `THREE.Vector3.lengthSq`. -/
def lengthSq (a : Vec3) : ℝ := a.x * a.x + a.y * a.y + a.z * a.z

/-- Length, `THREE.Vector3.length`. -/
def length (a : Vec3) : ℝ := Real.sqrt a.lengthSq

/-- Normalization, `THREE.Vector3.normalize`, which divides by
`this.length() || 1` (a zero vector is left unchanged). -/
def normalize (a : Vec3) : Vec3 :=
  a.multiplyScalar (1 / (if a.length = 0 then 1 else a.length))

/-- Squared distance, `THREE.Vector3.distanceToSquared`. -/
def distanceToSquared (a b : Vec3) : ℝ := (a.sub b).lengthSq

theorem lengthSq_nonneg (a : Vec3) : 0 ≤ a.lengthSq := by
  have hx : 0 ≤ a.x * a.x := mul_self_nonneg _
  have hy : 0 ≤ a.y * a.y := mul_self_nonneg _
  have hz : 0 ≤ a.z * a.z := mul_self_nonneg _
  unfold lengthSq; linarith

theorem length_nonneg (a : Vec3) : 0 ≤ a.length := Real.sqrt_nonneg _

theorem length_sq_eq (a : Vec3) : a.length * a.length = a.lengthSq := by
  unfold length
  exact Real.mul_self_sqrt a.lengthSq_nonneg

theorem dot_self (a : Vec3) : a.dot a = a.lengthSq := rfl

theorem dot_comm (a b : Vec3) : a.dot b = b.dot a := by
  unfold dot; ring

theorem dot_add_left (a b c : Vec3) : (a.add b).dot c = a.dot c + b.dot c := by
  unfold dot add; dsimp only; ring

theorem dot_sub_left (a b c : Vec3) : (a.sub b).dot c = a.dot c - b.dot c := by
  unfold dot sub; dsimp only; ring

theorem dot_smul_left (a : Vec3) (s : ℝ) (c : Vec3) :
    (a.multiplyScalar s).dot c = s * a.dot c := by
  unfold dot multiplyScalar; dsimp only; ring

theorem lengthSq_smul (a : Vec3) (s : ℝ) :
    (a.multiplyScalar s).lengthSq = s * s * a.lengthSq := by
  unfold lengthSq multiplyScalar; dsimp only; ring

theorem length_smul (a : Vec3) (s : ℝ) :
    (a.multiplyScalar s).length = |s| * a.length := by
  unfold length
  rw [lengthSq_smul]
  rw [show s * s * a.lengthSq = s ^ 2 * a.lengthSq by ring]
  rw [Real.sqrt_mul (sq_nonneg s), Real.sqrt_sq_eq_abs]

theorem lengthSq_eq_zero_iff (a : Vec3) : a.lengthSq = 0 ↔ a = ⟨0, 0, 0⟩ := by
  constructor
  · intro h
    have hx : 0 ≤ a.x * a.x := mul_self_nonneg _
    have hy : 0 ≤ a.y * a.y := mul_self_nonneg _
    have hz : 0 ≤ a.z * a.z := mul_self_nonneg _
    have h' : a.x * a.x + a.y * a.y + a.z * a.z = 0 := h
    have hx0 : a.x * a.x = 0 := by linarith
    have hy0 : a.y * a.y = 0 := by linarith
    have hz0 : a.z * a.z = 0 := by linarith
    cases a with
    | mk ax ay az =>
      simp only [Vec3.mk.injEq]
      refine ⟨?_, ?_, ?_⟩
      · exact mul_self_eq_zero.mp hx0
      · exact mul_self_eq_zero.mp hy0
      · exact mul_self_eq_zero.mp hz0
  · intro h
    subst h
    unfold lengthSq
    norm_num

theorem length_eq_zero_iff (a : Vec3) : a.length = 0 ↔ a.lengthSq = 0 := by
  unfold length
  rw [Real.sqrt_eq_zero a.lengthSq_nonneg]

/-- A normalized nonzero vector has unit squared length. -/
theorem lengthSq_normalize (a : Vec3) (h : a.length ≠ 0) :
    a.normalize.lengthSq = 1 := by
  unfold normalize
  rw [if_neg h, lengthSq_smul]
  have hsq : a.length * a.length = a.lengthSq := a.length_sq_eq
  field_simp
  nlinarith [a.length_sq_eq]

end Vec3

/-- Axis-aligned bounding box, from the `AABB` interface of the source. -/
structure AABB where
  min : Vec3
  max : Vec3

/-- Capsule collider, from the `Capsule` interface of the source
(`start` is the bottom center, `endPoint` the top center; the source calls
the latter `end`, which is a reserved word here). -/
structure Capsule where
  start : Vec3
  endPoint : Vec3
  radius : ℝ

/-- Closest point on an AABB to a point, clamped per axis exactly as in
`sphereIntersectsAABB` and `resolveCollisions`. -/
def closestPointOnAABB (p : Vec3) (aabb : AABB) : Vec3 :=
  ⟨max aabb.min.x (min p.x aabb.max.x),
   max aabb.min.y (min p.y aabb.max.y),
   max aabb.min.z (min p.z aabb.max.z)⟩

/-- Sphere-vs-AABB test of `CollisionSystem.sphereIntersectsAABB`: the squared
distance from the sphere center to the closest point on the box is at most the
squared radius. -/
def sphereIntersectsAABB (center : Vec3) (radius : ℝ) (aabb : AABB) : Prop :=
  (closestPointOnAABB center aabb).distanceToSquared center ≤ radius * radius

/-- Capsule-vs-AABB test of `CollisionSystem.capsuleIntersectsAABB`: either
endpoint sphere intersects the box. -/
def capsuleIntersectsAABB (capsule : Capsule) (aabb : AABB) : Prop :=
  sphereIntersectsAABB capsule.start capsule.radius aabb ∨
  sphereIntersectsAABB capsule.endPoint capsule.radius aabb

/-- Collision query of `CollisionSystem.checkCapsuleCollision`: walk the list
of static colliders and collect every box the capsule intersects. -/
def checkCapsuleCollision (staticColliders : List AABB) (capsule : Capsule) :
    List AABB :=
  match staticColliders with
  | [] => []
  | collider :: rest =>
    if capsuleIntersectsAABB capsule collider then
      collider :: checkCapsuleCollision rest capsule
    else
      checkCapsuleCollision rest capsule

/-- Penetration vector of one loop iteration of
`CollisionSystem.resolveCollisions`: capsule start minus the closest point on
the box. -/
def penetrationOf (capsule : Capsule) (collider : AABB) : Vec3 :=
  capsule.start.sub (closestPointOnAABB capsule.start collider)

/-- Contact normal used by `resolveCollisions`: the normalized penetration
vector, or the default `+X` axis when the penetration distance is zero. -/
def contactNormal (capsule : Capsule) (collider : AABB) : Vec3 :=
  if 0 < (penetrationOf capsule collider).length then
    (penetrationOf capsule collider).normalize
  else
    ⟨1, 0, 0⟩

/-- Body of the per-collider loop of `CollisionSystem.resolveCollisions`:
if the capsule penetrates the box and the velocity points into it, remove the
into-surface projection and add the `0.01` push-out bias along the normal. -/
def resolveBoxStep (capsule : Capsule) (newVelocity : Vec3) (collider : AABB) :
    Vec3 :=
  if (penetrationOf capsule collider).length < capsule.radius then
    let n := contactNormal capsule collider
    if newVelocity.dot n < 0 then
      (newVelocity.sub (n.multiplyScalar (newVelocity.dot n))).add
        (n.multiplyScalar 0.01)
    else
      newVelocity
  else
    newVelocity

/-- The per-collider pass of `resolveCollisions`: fold the loop body over the
collider list, starting from the (cloned) proposed velocity. -/
def perBoxPass (capsule : Capsule) (velocity : Vec3) (colliders : List AABB) :
    Vec3 :=
  colliders.foldl (resolveBoxStep capsule) velocity

/-- Average outward push direction of the corner-stuck fallback in
`resolveCollisions`: sum of the normalized directions from each box center to
the capsule start. -/
def avgPushDir (capsule : Capsule) (colliders : List AABB) : Vec3 :=
  colliders.foldl
    (fun acc collider =>
      acc.add
        ((capsule.start.sub
            ((collider.min.add collider.max).multiplyScalar 0.5)).normalize))
    ⟨0, 0, 0⟩

/-- Corner-stuck fallback of `resolveCollisions`: if the average push
direction is nonzero, add a `0.05`-length nudge along it. -/
def cornerFallback (capsule : Capsule) (newVelocity : Vec3)
    (colliders : List AABB) : Vec3 :=
  if 0 < (avgPushDir capsule colliders).lengthSq then
    newVelocity.add ((avgPushDir capsule colliders).normalize.multiplyScalar 0.05)
  else
    newVelocity

/-- `CollisionSystem.resolveCollisions`: per-collider sliding pass followed by
the corner-stuck fallback when at least two boxes collide and the corrected
velocity is nearly zero. -/
def resolveCollisions (capsule : Capsule) (velocity : Vec3)
    (colliders : List AABB) : Vec3 :=
  if colliders.length = 0 then
    velocity
  else
    let newVelocity := perBoxPass capsule velocity colliders
    if 1 < colliders.length ∧ newVelocity.lengthSq < 0.01 then
      cornerFallback capsule newVelocity colliders
    else
      newVelocity

end

noncomputable section

/-- Square-root evaluation helper for concrete rational inputs. -/
theorem sqrt_eval {a b : ℝ} (hb : 0 ≤ b) (h : a = b * b) : Real.sqrt a = b := by
  rw [h]; exact Real.sqrt_mul_self hb

/-- Length of a vector, written out on the components. -/
theorem Vec3.length_eval (a : Vec3) :
    a.length = Real.sqrt (a.x * a.x + a.y * a.y + a.z * a.z) := rfl

/-- Normalization evaluated at a vector of known nonzero length. -/
theorem Vec3.normalize_eval (a : Vec3) (l : ℝ) (hl : a.length = l)
    (h : l ≠ 0) : a.normalize = a.multiplyScalar (1 / l) := by
  unfold Vec3.normalize
  rw [hl, if_neg h]

/-- With a single collider, `resolveCollisions` is exactly one iteration of
the per-collider loop and the corner fallback cannot fire. -/
theorem resolveCollisions_single (capsule : Capsule) (v : Vec3) (c : AABB) :
    resolveCollisions capsule v [c] = resolveBoxStep capsule v c := by
  unfold resolveCollisions perBoxPass
  simp [List.foldl]

/-- The loop body when the box is penetrated and the velocity points into it. -/
theorem resolveBoxStep_of_dot_neg (capsule : Capsule) (v : Vec3) (c : AABB)
    (h1 : (penetrationOf capsule c).length < capsule.radius)
    (h2 : v.dot (contactNormal capsule c) < 0) :
    resolveBoxStep capsule v c =
      (v.sub ((contactNormal capsule c).multiplyScalar
          (v.dot (contactNormal capsule c)))).add
        ((contactNormal capsule c).multiplyScalar 0.01) := by
  unfold resolveBoxStep
  rw [if_pos h1, if_pos h2]

/-- The loop body leaves the velocity alone when it does not point into the
box. -/
theorem resolveBoxStep_of_dot_nonneg (capsule : Capsule) (v : Vec3) (c : AABB)
    (h2 : ¬ v.dot (contactNormal capsule c) < 0) :
    resolveBoxStep capsule v c = v := by
  unfold resolveBoxStep
  by_cases h1 : (penetrationOf capsule c).length < capsule.radius
  · rw [if_pos h1, if_neg h2]
  · rw [if_neg h1]

/-- The loop body leaves the velocity alone when the box is not penetrated. -/
theorem resolveBoxStep_of_no_overlap (capsule : Capsule) (v : Vec3) (c : AABB)
    (h1 : ¬ (penetrationOf capsule c).length < capsule.radius) :
    resolveBoxStep capsule v c = v := by
  unfold resolveBoxStep
  rw [if_neg h1]

/-- Contact normal when the penetration distance is positive. -/
theorem contactNormal_of_pos (capsule : Capsule) (c : AABB)
    (h : 0 < (penetrationOf capsule c).length) :
    contactNormal capsule c = (penetrationOf capsule c).normalize := by
  unfold contactNormal
  rw [if_pos h]

/-- Contact normal defaults to the `+X` axis at zero penetration distance. -/
theorem contactNormal_of_zero (capsule : Capsule) (c : AABB)
    (h : ¬ 0 < (penetrationOf capsule c).length) :
    contactNormal capsule c = ⟨1, 0, 0⟩ := by
  unfold contactNormal
  rw [if_neg h]

/-- Scenario A capsule: the player capsule (radius 0.4, height 1.8) at actor
position (0, 0.9, 0.35), so the bottom endpoint is (0, 0.4, 0.35) and the top
endpoint (0, 1.4, 0.35). -/
def scenarioACapsule : Capsule :=
  ⟨⟨0, 0.4, 0.35⟩, ⟨0, 1.4, 0.35⟩, 0.4⟩

/-- Scenario A wall: the static AABB spanning x ∈ [-0.5, 0.5], y ∈ [0, 1],
z ∈ [0.5, 1.5]. -/
def scenarioABox : AABB :=
  ⟨⟨-0.5, 0, 0.5⟩, ⟨0.5, 1, 1.5⟩⟩

theorem scenarioA_penetration :
    penetrationOf scenarioACapsule scenarioABox = ⟨0, 0, -0.15⟩ := by
  unfold penetrationOf closestPointOnAABB scenarioACapsule scenarioABox Vec3.sub
  norm_num [min_def, max_def]

theorem scenarioA_length :
    (penetrationOf scenarioACapsule scenarioABox).length = 0.15 := by
  rw [scenarioA_penetration, Vec3.length_eval]
  exact sqrt_eval (by norm_num) (by norm_num)

theorem scenarioA_normal :
    contactNormal scenarioACapsule scenarioABox = ⟨0, 0, -1⟩ := by
  rw [contactNormal_of_pos _ _ (by rw [scenarioA_length]; norm_num),
    Vec3.normalize_eval _ 0.15 scenarioA_length (by norm_num),
    scenarioA_penetration]
  unfold Vec3.multiplyScalar
  norm_num

theorem scenarioA_resolve :
    resolveCollisions scenarioACapsule ⟨0, 0, 5⟩ [scenarioABox] =
      ⟨0, 0, -0.01⟩ := by
  rw [resolveCollisions_single]
  have hdot : Vec3.dot ⟨0, 0, 5⟩ (contactNormal scenarioACapsule scenarioABox)
      = -5 := by
    rw [scenarioA_normal]; unfold Vec3.dot; norm_num
  rw [resolveBoxStep_of_dot_neg _ _ _
    (by rw [scenarioA_length]; unfold scenarioACapsule; norm_num)
    (by rw [hdot]; norm_num), hdot, scenarioA_normal]
  unfold Vec3.sub Vec3.add Vec3.multiplyScalar
  norm_num

/-- C1: for the radius-0.4 capsule whose bottom endpoint is (0, 0.4, 0.35)
(actor position (0, 0.9, 0.35)) with proposed velocity (0, 0, 5), resolving
against the single static AABB with min (-0.5, 0, 0.5) and max (0.5, 1, 1.5)
yields a corrected velocity whose z-component is within the 0.01 push-out bias
of zero and whose x-component is exactly the unchanged 0. -/
theorem C1_scenarioA_blocked :
    (resolveCollisions scenarioACapsule ⟨0, 0, 5⟩ [scenarioABox]).x = 0 ∧
    |(resolveCollisions scenarioACapsule ⟨0, 0, 5⟩ [scenarioABox]).z| ≤ 0.01
    := by
  rw [scenarioA_resolve]
  norm_num [abs_le]

end

noncomputable section

/-- The contact normal is always a unit vector: either a normalization of a
nonzero penetration vector, or the default axis. -/
theorem contactNormal_dot_self (capsule : Capsule) (c : AABB) :
    (contactNormal capsule c).dot (contactNormal capsule c) = 1 := by
  unfold contactNormal
  by_cases h : 0 < (penetrationOf capsule c).length
  · rw [if_pos h, Vec3.dot_self]
    exact Vec3.lengthSq_normalize _ (ne_of_gt h)
  · rw [if_neg h]
    unfold Vec3.dot
    norm_num

/-- C2: for a capsule and a single overlapping AABB with contact normal `n`,
`resolveCollisions` changes the velocity only along `n`: its dot product with
every direction orthogonal to `n` is exactly preserved (tangential sliding
component unchanged). -/
theorem C2_tangential_preserved (capsule : Capsule) (v : Vec3) (c : AABB)
    (h : (penetrationOf capsule c).length < capsule.radius) :
    ∀ w : Vec3, w.dot (contactNormal capsule c) = 0 →
      (resolveCollisions capsule v [c]).dot w = v.dot w := by
  intro w hw
  have hnw : (contactNormal capsule c).dot w = 0 := by
    rw [Vec3.dot_comm]; exact hw
  rw [resolveCollisions_single]
  by_cases h2 : v.dot (contactNormal capsule c) < 0
  · rw [resolveBoxStep_of_dot_neg _ _ _ h h2,
      Vec3.dot_add_left, Vec3.dot_sub_left, Vec3.dot_smul_left,
      Vec3.dot_smul_left, hnw]
    ring
  · rw [resolveBoxStep_of_dot_nonneg _ _ _ h2]

theorem C2_tangential_preserved_witness :
    (resolveCollisions scenarioACapsule ⟨0, 0, 5⟩ [scenarioABox]).dot ⟨1, 0, 0⟩
      = Vec3.dot ⟨0, 0, 5⟩ ⟨1, 0, 0⟩ :=
  C2_tangential_preserved scenarioACapsule ⟨0, 0, 5⟩ scenarioABox
    (by rw [scenarioA_length]; unfold scenarioACapsule; norm_num)
    ⟨1, 0, 0⟩
    (by rw [scenarioA_normal]; unfold Vec3.dot; norm_num)

/-- C4 (amended): with a single collider, `resolveCollisions` is idempotent on
its own output: after a correction the velocity's dot product with the contact
normal is the positive bias `0.01`, so the second call changes nothing. -/
theorem C4_resolve_idempotent_single (capsule : Capsule) (v : Vec3) (c : AABB) :
    resolveCollisions capsule (resolveCollisions capsule v [c]) [c] =
      resolveCollisions capsule v [c] := by
  rw [resolveCollisions_single, resolveCollisions_single]
  by_cases h1 : (penetrationOf capsule c).length < capsule.radius
  · by_cases h2 : v.dot (contactNormal capsule c) < 0
    · rw [resolveBoxStep_of_dot_neg _ _ _ h1 h2]
      apply resolveBoxStep_of_dot_nonneg
      rw [Vec3.dot_add_left, Vec3.dot_sub_left, Vec3.dot_smul_left,
        Vec3.dot_smul_left, contactNormal_dot_self]
      intro hcon
      norm_num at hcon
    · rw [resolveBoxStep_of_dot_nonneg _ _ _ h2]
      exact resolveBoxStep_of_dot_nonneg _ _ _ h2
  · rw [resolveBoxStep_of_no_overlap _ _ _ h1]

end

noncomputable section

/-- Normalization of a concrete vector whose length is a known rational. -/
theorem Vec3.normalize_concrete (x y z l : ℝ) (h : x * x + y * y + z * z = l * l)
    (hl : 0 < l) :
    (⟨x, y, z⟩ : Vec3).normalize = ⟨x * (1 / l), y * (1 / l), z * (1 / l)⟩ := by
  rw [Vec3.normalize_eval ⟨x, y, z⟩ l
    (by rw [Vec3.length_eval]; exact sqrt_eval (le_of_lt hl) h)
    (ne_of_gt hl)]
  rfl

/-- The loop body, written with an explicit normal, for concrete evaluation. -/
theorem resolveBoxStep_push_eval (capsule : Capsule) (c : AABB) (v n : Vec3)
    (hpen : (penetrationOf capsule c).length < capsule.radius)
    (hn : contactNormal capsule c = n)
    (hdot : v.dot n < 0) :
    resolveBoxStep capsule v c =
      (v.sub (n.multiplyScalar (v.dot n))).add (n.multiplyScalar 0.01) := by
  subst hn
  exact resolveBoxStep_of_dot_neg _ _ _ hpen hdot

/-- The loop body never moves a zero velocity (its dot product with any
normal is zero, not negative). -/
theorem resolveBoxStep_zero_vel (capsule : Capsule) (c : AABB) :
    resolveBoxStep capsule ⟨0, 0, 0⟩ c = ⟨0, 0, 0⟩ := by
  apply resolveBoxStep_of_dot_nonneg
  unfold Vec3.dot
  norm_num

/-- The whole per-collider pass never moves a zero velocity. -/
theorem perBoxPass_zero (capsule : Capsule) (l : List AABB) :
    perBoxPass capsule ⟨0, 0, 0⟩ l = ⟨0, 0, 0⟩ := by
  unfold perBoxPass
  induction l with
  | nil => rfl
  | cons c rest ih =>
    simp only [List.foldl]
    rw [resolveBoxStep_zero_vel]
    exact ih

/-- With exactly two colliders and a per-box result that is not nearly zero,
`resolveCollisions` is the two loop iterations and the fallback is skipped. -/
theorem resolveCollisions_pair_not_small (capsule : Capsule) (v : Vec3)
    (c1 c2 : AABB)
    (h : ¬ (resolveBoxStep capsule (resolveBoxStep capsule v c1) c2).lengthSq
        < 0.01) :
    resolveCollisions capsule v [c1, c2] =
      resolveBoxStep capsule (resolveBoxStep capsule v c1) c2 := by
  unfold resolveCollisions perBoxPass
  simp [List.foldl, h]

/-- Capsule wedged at the origin, used by the corner scenarios: bottom
endpoint (0, 0, 0), top endpoint (0, 1, 0), radius 0.4. -/
def cornerCapsule : Capsule := ⟨⟨0, 0, 0⟩, ⟨0, 1, 0⟩, 0.4⟩

/-- Box to the -x side of the corner capsule (penetration along +x). -/
def cornerBoxA : AABB := ⟨⟨-1, -0.5, -0.5⟩, ⟨-0.1, 0.5, 0.5⟩⟩

/-- Box below and to the +x side, giving the oblique normal (-0.6, 0.8, 0). -/
def cornerBoxB : AABB := ⟨⟨0.06, -1, -0.5⟩, ⟨1, -0.08, 0.5⟩⟩

theorem cornerBoxA_pen :
    penetrationOf cornerCapsule cornerBoxA = ⟨0.1, 0, 0⟩ := by
  unfold penetrationOf closestPointOnAABB cornerCapsule cornerBoxA Vec3.sub
  norm_num [min_def, max_def]

theorem cornerBoxA_len :
    (penetrationOf cornerCapsule cornerBoxA).length = 0.1 := by
  rw [cornerBoxA_pen, Vec3.length_eval]
  exact sqrt_eval (by norm_num) (by norm_num)

theorem cornerBoxA_normal :
    contactNormal cornerCapsule cornerBoxA = ⟨1, 0, 0⟩ := by
  rw [contactNormal_of_pos _ _ (by rw [cornerBoxA_len]; norm_num), cornerBoxA_pen,
    Vec3.normalize_concrete 0.1 0 0 0.1 (by norm_num) (by norm_num)]
  norm_num

theorem cornerBoxB_pen :
    penetrationOf cornerCapsule cornerBoxB = ⟨-0.06, 0.08, 0⟩ := by
  unfold penetrationOf closestPointOnAABB cornerCapsule cornerBoxB Vec3.sub
  norm_num [min_def, max_def]

theorem cornerBoxB_len :
    (penetrationOf cornerCapsule cornerBoxB).length = 0.1 := by
  rw [cornerBoxB_pen, Vec3.length_eval]
  exact sqrt_eval (by norm_num) (by norm_num)

theorem cornerBoxB_normal :
    contactNormal cornerCapsule cornerBoxB = ⟨-0.6, 0.8, 0⟩ := by
  rw [contactNormal_of_pos _ _ (by rw [cornerBoxB_len]; norm_num), cornerBoxB_pen,
    Vec3.normalize_concrete (-0.06) 0.08 0 0.1 (by norm_num) (by norm_num)]
  norm_num

theorem cornerStepA1 :
    resolveBoxStep cornerCapsule ⟨-1, -0.1, -5⟩ cornerBoxA = ⟨0.01, -0.1, -5⟩
    := by
  rw [resolveBoxStep_push_eval cornerCapsule cornerBoxA _ ⟨1, 0, 0⟩
    (by rw [cornerBoxA_len]; unfold cornerCapsule; norm_num)
    cornerBoxA_normal (by unfold Vec3.dot; norm_num)]
  unfold Vec3.dot Vec3.sub Vec3.add Vec3.multiplyScalar
  norm_num

theorem cornerStepB1 :
    resolveBoxStep cornerCapsule ⟨0.01, -0.1, -5⟩ cornerBoxB =
      ⟨-0.0476, -0.0232, -5⟩ := by
  rw [resolveBoxStep_push_eval cornerCapsule cornerBoxB _ ⟨-0.6, 0.8, 0⟩
    (by rw [cornerBoxB_len]; unfold cornerCapsule; norm_num)
    cornerBoxB_normal (by unfold Vec3.dot; norm_num)]
  unfold Vec3.dot Vec3.sub Vec3.add Vec3.multiplyScalar
  norm_num

theorem cornerStepA2 :
    resolveBoxStep cornerCapsule ⟨-0.0476, -0.0232, -5⟩ cornerBoxA =
      ⟨0.01, -0.0232, -5⟩ := by
  rw [resolveBoxStep_push_eval cornerCapsule cornerBoxA _ ⟨1, 0, 0⟩
    (by rw [cornerBoxA_len]; unfold cornerCapsule; norm_num)
    cornerBoxA_normal (by unfold Vec3.dot; norm_num)]
  unfold Vec3.dot Vec3.sub Vec3.add Vec3.multiplyScalar
  norm_num

theorem cornerStepB2 :
    resolveBoxStep cornerCapsule ⟨0.01, -0.0232, -5⟩ cornerBoxB =
      ⟨-0.010736, 0.004448, -5⟩ := by
  rw [resolveBoxStep_push_eval cornerCapsule cornerBoxB _ ⟨-0.6, 0.8, 0⟩
    (by rw [cornerBoxB_len]; unfold cornerCapsule; norm_num)
    cornerBoxB_normal (by unfold Vec3.dot; norm_num)]
  unfold Vec3.dot Vec3.sub Vec3.add Vec3.multiplyScalar
  norm_num

theorem cornerResolve1 :
    resolveCollisions cornerCapsule ⟨-1, -0.1, -5⟩ [cornerBoxA, cornerBoxB] =
      ⟨-0.0476, -0.0232, -5⟩ := by
  rw [resolveCollisions_pair_not_small _ _ _ _
    (by rw [cornerStepA1, cornerStepB1]; unfold Vec3.lengthSq; norm_num),
    cornerStepA1, cornerStepB1]

theorem cornerResolve2 :
    resolveCollisions cornerCapsule ⟨-0.0476, -0.0232, -5⟩
      [cornerBoxA, cornerBoxB] = ⟨-0.010736, 0.004448, -5⟩ := by
  rw [resolveCollisions_pair_not_small _ _ _ _
    (by rw [cornerStepA2, cornerStepB2]; unfold Vec3.lengthSq; norm_num),
    cornerStepA2, cornerStepB2]

/-- C4 counterexample: both boxes of an oblique corner genuinely overlap the
capsule, yet feeding the corrected velocity of `resolveCollisions` back into a
second call with the same capsule and collider set changes it again (the first
box's correction re-enters the second box's half-space and vice versa). -/
theorem C4_counterexample_two_boxes :
    capsuleIntersectsAABB cornerCapsule cornerBoxA ∧
    capsuleIntersectsAABB cornerCapsule cornerBoxB ∧
    resolveCollisions cornerCapsule
        (resolveCollisions cornerCapsule ⟨-1, -0.1, -5⟩
          [cornerBoxA, cornerBoxB])
        [cornerBoxA, cornerBoxB] ≠
      resolveCollisions cornerCapsule ⟨-1, -0.1, -5⟩ [cornerBoxA, cornerBoxB]
    := by
  refine ⟨Or.inl ?_, Or.inl ?_, ?_⟩
  · unfold sphereIntersectsAABB closestPointOnAABB Vec3.distanceToSquared
      Vec3.sub Vec3.lengthSq cornerCapsule cornerBoxA
    norm_num [min_def, max_def]
  · unfold sphereIntersectsAABB closestPointOnAABB Vec3.distanceToSquared
      Vec3.sub Vec3.lengthSq cornerCapsule cornerBoxB
    norm_num [min_def, max_def]
  · rw [cornerResolve1, cornerResolve2]
    intro heq
    have hx := congrArg Vec3.x heq
    norm_num at hx

end

noncomputable section

/-- Box to the -x side of the origin capsule, symmetric to `symBoxR`. -/
def symBoxL : AABB := ⟨⟨-1.2, -1, -0.5⟩, ⟨-0.2, 1, 0.5⟩⟩

/-- Box to the +x side of the origin capsule, symmetric to `symBoxL`. -/
def symBoxR : AABB := ⟨⟨0.2, -1, -0.5⟩, ⟨1.2, 1, 0.5⟩⟩

theorem symAvgPushDir :
    avgPushDir cornerCapsule [symBoxL, symBoxR] = ⟨0, 0, 0⟩ := by
  have hL : Vec3.sub cornerCapsule.start
      ((symBoxL.min.add symBoxL.max).multiplyScalar 0.5) = ⟨0.7, 0, 0⟩ := by
    unfold cornerCapsule symBoxL Vec3.add Vec3.sub Vec3.multiplyScalar
    norm_num
  have hR : Vec3.sub cornerCapsule.start
      ((symBoxR.min.add symBoxR.max).multiplyScalar 0.5) = ⟨-0.7, 0, 0⟩ := by
    unfold cornerCapsule symBoxR Vec3.add Vec3.sub Vec3.multiplyScalar
    norm_num
  unfold avgPushDir
  simp only [List.foldl]
  rw [hL, hR, Vec3.normalize_concrete 0.7 0 0 0.7 (by norm_num) (by norm_num),
    Vec3.normalize_concrete (-0.7) 0 0 0.7 (by norm_num) (by norm_num)]
  unfold Vec3.add
  norm_num

/-- C3 counterexample: at a perfectly symmetric corner (two boxes mirrored
about the capsule), both claim hypotheses hold — two overlapping boxes and a
near-zero per-box-corrected velocity — yet the average outward direction
cancels to zero, the guarded nudge is skipped, and `resolveCollisions`
returns exactly (0, 0, 0). -/
theorem C3_counterexample_symmetric :
    1 < ([symBoxL, symBoxR] : List AABB).length ∧
    capsuleIntersectsAABB cornerCapsule symBoxL ∧
    capsuleIntersectsAABB cornerCapsule symBoxR ∧
    (perBoxPass cornerCapsule ⟨0, 0, 0⟩ [symBoxL, symBoxR]).lengthSq < 0.01 ∧
    resolveCollisions cornerCapsule ⟨0, 0, 0⟩ [symBoxL, symBoxR] = ⟨0, 0, 0⟩
    := by
  refine ⟨by norm_num, Or.inl ?_, Or.inl ?_, ?_, ?_⟩
  · unfold sphereIntersectsAABB closestPointOnAABB Vec3.distanceToSquared
      Vec3.sub Vec3.lengthSq cornerCapsule symBoxL
    norm_num [min_def, max_def]
  · unfold sphereIntersectsAABB closestPointOnAABB Vec3.distanceToSquared
      Vec3.sub Vec3.lengthSq cornerCapsule symBoxR
    norm_num [min_def, max_def]
  · rw [perBoxPass_zero]
    unfold Vec3.lengthSq
    norm_num
  · unfold resolveCollisions
    rw [if_neg (by simp)]
    simp only []
    rw [perBoxPass_zero,
      if_pos ⟨by norm_num, by unfold Vec3.lengthSq; norm_num⟩]
    unfold cornerFallback
    rw [symAvgPushDir,
      if_neg (by unfold Vec3.lengthSq; norm_num)]

/-- C3 (amended): with at least two colliders, a per-box-corrected velocity of
squared length below the stuck threshold, and a nonzero average outward
direction, `resolveCollisions` returns the corrected velocity nudged by 0.05
along the normalized average direction; when the average direction is zero
the nudge is skipped (and the result may be exactly zero). -/
theorem C3_corner_nudge (capsule : Capsule) (v : Vec3) (colliders : List AABB)
    (h1 : 1 < colliders.length)
    (h2 : (perBoxPass capsule v colliders).lengthSq < 0.01)
    (h3 : 0 < (avgPushDir capsule colliders).lengthSq) :
    resolveCollisions capsule v colliders =
      (perBoxPass capsule v colliders).add
        ((avgPushDir capsule colliders).normalize.multiplyScalar 0.05) := by
  unfold resolveCollisions
  rw [if_neg (by omega), if_pos ⟨h1, h2⟩]
  unfold cornerFallback
  rw [if_pos h3]

/-- Box with center (-0.4, -0.3, 0) containing the origin capsule start. -/
def nudgeBoxA : AABB := ⟨⟨-0.9, -0.8, -0.5⟩, ⟨0.1, 0.2, 0.5⟩⟩

/-- Box with center (-0.4, 0.3, 0) containing the origin capsule start. -/
def nudgeBoxB : AABB := ⟨⟨-0.9, -0.2, -0.5⟩, ⟨0.1, 0.8, 0.5⟩⟩

theorem nudgeAvgPushDir :
    avgPushDir cornerCapsule [nudgeBoxA, nudgeBoxB] = ⟨1.6, 0, 0⟩ := by
  have hA : Vec3.sub cornerCapsule.start
      ((nudgeBoxA.min.add nudgeBoxA.max).multiplyScalar 0.5) = ⟨0.4, 0.3, 0⟩
      := by
    unfold cornerCapsule nudgeBoxA Vec3.add Vec3.sub Vec3.multiplyScalar
    norm_num
  have hB : Vec3.sub cornerCapsule.start
      ((nudgeBoxB.min.add nudgeBoxB.max).multiplyScalar 0.5) = ⟨0.4, -0.3, 0⟩
      := by
    unfold cornerCapsule nudgeBoxB Vec3.add Vec3.sub Vec3.multiplyScalar
    norm_num
  unfold avgPushDir
  simp only [List.foldl]
  rw [hA, hB, Vec3.normalize_concrete 0.4 0.3 0 0.5 (by norm_num) (by norm_num),
    Vec3.normalize_concrete 0.4 (-0.3) 0 0.5 (by norm_num) (by norm_num)]
  unfold Vec3.add
  norm_num

theorem C3_corner_nudge_witness :
    resolveCollisions cornerCapsule ⟨0, 0, 0⟩ [nudgeBoxA, nudgeBoxB] =
      ⟨0.05, 0, 0⟩ := by
  rw [C3_corner_nudge cornerCapsule ⟨0, 0, 0⟩ [nudgeBoxA, nudgeBoxB]
    (by norm_num)
    (by rw [perBoxPass_zero]; unfold Vec3.lengthSq; norm_num)
    (by rw [nudgeAvgPushDir]; unfold Vec3.lengthSq; norm_num),
    perBoxPass_zero, nudgeAvgPushDir,
    Vec3.normalize_concrete 1.6 0 0 1.6 (by norm_num) (by norm_num)]
  unfold Vec3.add Vec3.multiplyScalar
  norm_num

end

noncomputable section

/-- C5: the collision query returns exactly the static colliders passing the
endpoint-sphere test — a box is in the result iff it is in the static list and
the capsule's start or end endpoint sphere reaches it — so every overlapping
box is returned, not only the first. -/
theorem C5_query_exactly_overlapping (staticColliders : List AABB)
    (capsule : Capsule) (c : AABB) :
    c ∈ checkCapsuleCollision staticColliders capsule ↔
      c ∈ staticColliders ∧ capsuleIntersectsAABB capsule c := by
  induction staticColliders with
  | nil => simp [checkCapsuleCollision]
  | cons d rest ih =>
    unfold checkCapsuleCollision
    by_cases h : capsuleIntersectsAABB capsule d
    · rw [if_pos h, List.mem_cons, List.mem_cons, ih]
      constructor
      · rintro (rfl | ⟨hc, hp⟩)
        · exact ⟨Or.inl rfl, h⟩
        · exact ⟨Or.inr hc, hp⟩
      · rintro ⟨rfl | hc, hp⟩
        · exact Or.inl rfl
        · exact Or.inr ⟨hc, hp⟩
    · rw [if_neg h, ih, List.mem_cons]
      constructor
      · rintro ⟨hc, hp⟩
        exact ⟨Or.inr hc, hp⟩
      · rintro ⟨rfl | hc, hp⟩
        · exact absurd hp h
        · exact ⟨hc, hp⟩

/-- C6: when the separation between the capsule start and the closest point on
the box is exactly zero, the resolver substitutes the fixed +X axis as the
contact normal; and the normal is always a unit vector, so a zero-length
vector is never normalized (no NaN can arise from the normalization). -/
theorem C6_zero_separation_default_axis (capsule : Capsule) (c : AABB) :
    ((penetrationOf capsule c).length = 0 →
      contactNormal capsule c = ⟨1, 0, 0⟩) ∧
    (contactNormal capsule c).lengthSq = 1 := by
  constructor
  · intro h
    apply contactNormal_of_zero
    rw [h]
    norm_num
  · have h := contactNormal_dot_self capsule c
    rw [Vec3.dot_self] at h
    exact h

theorem C6_zero_separation_default_axis_witness :
    contactNormal cornerCapsule nudgeBoxA = ⟨1, 0, 0⟩ ∧
    (contactNormal cornerCapsule nudgeBoxA).lengthSq = 1 := by
  have hpen : penetrationOf cornerCapsule nudgeBoxA = ⟨0, 0, 0⟩ := by
    unfold penetrationOf closestPointOnAABB cornerCapsule nudgeBoxA Vec3.sub
    norm_num [min_def, max_def]
  exact ⟨(C6_zero_separation_default_axis cornerCapsule nudgeBoxA).1
      (by rw [hpen, Vec3.length_eval]; exact sqrt_eval (by norm_num) (by norm_num)),
    (C6_zero_separation_default_axis cornerCapsule nudgeBoxA).2⟩

/-- Player max speed, `Player.maxSpeed` (15.0). -/
def playerMaxSpeed : ℝ := 15.0

/-- Player friction multiplier, `Player.friction` (0.8). -/
def playerFriction : ℝ := 0.8

/-- Velocity phase of `Player.update`: apply acceleration scaled by the tick
length, then the friction multiplier, then clamp to `maxSpeed` by
normalize-and-scale when the squared length exceeds `maxSpeed²`. -/
def updateVelocity (velocity acceleration : Vec3)
    (deltaTime friction maxSpeed : ℝ) : Vec3 :=
  let v1 := velocity.add (acceleration.multiplyScalar deltaTime)
  let v2 := v1.multiplyScalar friction
  if maxSpeed * maxSpeed < v2.lengthSq then
    v2.normalize.multiplyScalar maxSpeed
  else
    v2

/-- C7: after the accelerate/friction/clamp phase of `Player.update` — and so
before any collision correction — the velocity magnitude is at most the
configured (nonnegative) max speed. -/
theorem C7_clamped_speed_bound (velocity acceleration : Vec3)
    (deltaTime friction maxSpeed : ℝ) (h : 0 ≤ maxSpeed) :
    (updateVelocity velocity acceleration deltaTime friction maxSpeed).length
      ≤ maxSpeed := by
  unfold updateVelocity
  set v2 := ((velocity.add (acceleration.multiplyScalar deltaTime)).multiplyScalar
    friction) with hv2
  by_cases hbig : maxSpeed * maxSpeed < v2.lengthSq
  · rw [if_pos hbig]
    have hne : v2.length ≠ 0 := by
      intro h0
      rw [Vec3.length_eq_zero_iff] at h0
      nlinarith [mul_self_nonneg maxSpeed]
    have h1 : v2.normalize.length = 1 := by
      unfold Vec3.length
      rw [Vec3.lengthSq_normalize v2 hne]
      exact Real.sqrt_one
    rw [Vec3.length_smul, h1, abs_of_nonneg h]
    norm_num
  · rw [if_neg hbig]
    push_neg at hbig
    have hle : v2.length ≤ Real.sqrt (maxSpeed * maxSpeed) :=
      Real.sqrt_le_sqrt hbig
    rwa [Real.sqrt_mul_self h] at hle

theorem C7_clamped_speed_bound_witness :
    (updateVelocity ⟨20, 0, 0⟩ ⟨0, 0, 0⟩ (1 / 60) playerFriction
      playerMaxSpeed).length ≤ playerMaxSpeed :=
  C7_clamped_speed_bound ⟨20, 0, 0⟩ ⟨0, 0, 0⟩ (1 / 60) playerFriction
    playerMaxSpeed (by unfold playerMaxSpeed; norm_num)

end

noncomputable section

/-- Fixed simulation timestep, `FIXED_TIMESTEP = 1 / 60` in `GameLoop.ts`. -/
def FIXED_TIMESTEP : ℝ := 1 / 60

/-- Frame-time ceiling, `MAX_FRAME_TIME = 0.25` in `GameLoop.ts`. -/
def MAX_FRAME_TIME : ℝ := 0.25

/-- Number of iterations of the `while (accumulator >= FIXED_TIMESTEP)` loop
in `gameLoop`, each of which runs `fixedUpdate` once and subtracts one
`FIXED_TIMESTEP` from the accumulator. -/
def numFixedUpdates (acc : ℝ) : ℕ := ⌊acc / FIXED_TIMESTEP⌋₊

/-- The while loop runs zero times when the accumulator is below one
timestep. -/
theorem numFixedUpdates_of_lt (acc : ℝ) (h : acc < FIXED_TIMESTEP) :
    numFixedUpdates acc = 0 := by
  unfold numFixedUpdates
  apply Nat.floor_eq_zero.mpr
  rw [div_lt_one (by unfold FIXED_TIMESTEP; norm_num)]
  exact h

/-- The while loop runs once and continues on the reduced accumulator when it
holds at least one timestep. -/
theorem numFixedUpdates_of_ge (acc : ℝ) (h : FIXED_TIMESTEP ≤ acc) :
    numFixedUpdates acc = numFixedUpdates (acc - FIXED_TIMESTEP) + 1 := by
  unfold numFixedUpdates
  have hts : (0 : ℝ) < FIXED_TIMESTEP := by unfold FIXED_TIMESTEP; norm_num
  have hrw : acc / FIXED_TIMESTEP = (acc - FIXED_TIMESTEP) / FIXED_TIMESTEP + 1
      := by field_simp
  rw [hrw, Nat.floor_add_one (div_nonneg (by linarith) (le_of_lt hts))]

/-- Timing state of the game loop: `lastTime` and `accumulator`. -/
structure LoopState where
  lastTime : ℝ
  accumulator : ℝ

/-- One frame of `gameLoop`: clamp the elapsed wall-clock time to
`MAX_FRAME_TIME`, add it to the accumulator, run the fixed-update loop (as
many whole timesteps as fit), and return the new state with the number of
`fixedUpdate` calls. -/
def gameLoopFrame (s : LoopState) (now : ℝ) : LoopState × ℕ :=
  let deltaTime := min (now - s.lastTime) MAX_FRAME_TIME
  let acc := s.accumulator + deltaTime
  let n := numFixedUpdates acc
  (⟨now, acc - (n : ℝ) * FIXED_TIMESTEP⟩, n)

/-- C8: each rendered frame adds at most `MAX_FRAME_TIME` of wall-clock time
to the accumulator (the excess is discarded — `lastTime` is still advanced to
`now`), and the fixed update runs exactly once per whole `FIXED_TIMESTEP`
available: each run consumes one timestep and the leftover accumulator is
nonnegative and below one timestep. -/
theorem C8_frame_accumulation (s : LoopState) (now : ℝ)
    (hacc : 0 ≤ s.accumulator) (hnow : s.lastTime ≤ now) :
    min (now - s.lastTime) MAX_FRAME_TIME ≤ MAX_FRAME_TIME ∧
    (gameLoopFrame s now).1.lastTime = now ∧
    (gameLoopFrame s now).1.accumulator =
      s.accumulator + min (now - s.lastTime) MAX_FRAME_TIME -
        ((gameLoopFrame s now).2 : ℝ) * FIXED_TIMESTEP ∧
    0 ≤ (gameLoopFrame s now).1.accumulator ∧
    (gameLoopFrame s now).1.accumulator < FIXED_TIMESTEP := by
  have hts : (0 : ℝ) < FIXED_TIMESTEP := by unfold FIXED_TIMESTEP; norm_num
  have hd0 : 0 ≤ min (now - s.lastTime) MAX_FRAME_TIME :=
    le_min (by linarith) (by unfold MAX_FRAME_TIME; norm_num)
  have hacc0 : 0 ≤ s.accumulator + min (now - s.lastTime) MAX_FRAME_TIME :=
    add_nonneg hacc hd0
  have hfl : ((numFixedUpdates
        (s.accumulator + min (now - s.lastTime) MAX_FRAME_TIME) : ℝ)) *
        FIXED_TIMESTEP ≤
      s.accumulator + min (now - s.lastTime) MAX_FRAME_TIME := by
    unfold numFixedUpdates
    have h1 := Nat.floor_le (div_nonneg hacc0 (le_of_lt hts))
    calc ((⌊(s.accumulator + min (now - s.lastTime) MAX_FRAME_TIME) /
              FIXED_TIMESTEP⌋₊ : ℝ)) * FIXED_TIMESTEP
        ≤ (s.accumulator + min (now - s.lastTime) MAX_FRAME_TIME) /
            FIXED_TIMESTEP * FIXED_TIMESTEP :=
          mul_le_mul_of_nonneg_right h1 (le_of_lt hts)
      _ = s.accumulator + min (now - s.lastTime) MAX_FRAME_TIME := by
          field_simp
  have hup : s.accumulator + min (now - s.lastTime) MAX_FRAME_TIME <
      ((numFixedUpdates
        (s.accumulator + min (now - s.lastTime) MAX_FRAME_TIME) : ℝ)) *
        FIXED_TIMESTEP + FIXED_TIMESTEP := by
    unfold numFixedUpdates
    have h2 := Nat.lt_floor_add_one
      ((s.accumulator + min (now - s.lastTime) MAX_FRAME_TIME) / FIXED_TIMESTEP)
    calc s.accumulator + min (now - s.lastTime) MAX_FRAME_TIME
        = (s.accumulator + min (now - s.lastTime) MAX_FRAME_TIME) /
            FIXED_TIMESTEP * FIXED_TIMESTEP := by field_simp
      _ < (((⌊(s.accumulator + min (now - s.lastTime) MAX_FRAME_TIME) /
              FIXED_TIMESTEP⌋₊ : ℝ)) + 1) * FIXED_TIMESTEP :=
          mul_lt_mul_of_pos_right h2 hts
      _ = ((⌊(s.accumulator + min (now - s.lastTime) MAX_FRAME_TIME) /
              FIXED_TIMESTEP⌋₊ : ℝ)) * FIXED_TIMESTEP + FIXED_TIMESTEP := by
          ring
  refine ⟨min_le_right _ _, rfl, rfl, ?_, ?_⟩
  · show 0 ≤ s.accumulator + min (now - s.lastTime) MAX_FRAME_TIME -
      ((numFixedUpdates
        (s.accumulator + min (now - s.lastTime) MAX_FRAME_TIME) : ℝ)) *
        FIXED_TIMESTEP
    linarith
  · show s.accumulator + min (now - s.lastTime) MAX_FRAME_TIME -
      ((numFixedUpdates
        (s.accumulator + min (now - s.lastTime) MAX_FRAME_TIME) : ℝ)) *
        FIXED_TIMESTEP < FIXED_TIMESTEP
    linarith

theorem C8_frame_accumulation_witness :
    0 ≤ (gameLoopFrame ⟨0, 0⟩ 1).1.accumulator ∧
    (gameLoopFrame ⟨0, 0⟩ 1).1.accumulator < FIXED_TIMESTEP :=
  ⟨(C8_frame_accumulation ⟨0, 0⟩ 1 (by norm_num) (by norm_num)).2.2.2.1,
   (C8_frame_accumulation ⟨0, 0⟩ 1 (by norm_num) (by norm_num)).2.2.2.2⟩

end

/-- Error raised when an operation references a never-created or already
purged entity handle. -/
inductive ECSError where
  | InvalidHandle
  deriving DecidableEq

/-- State of the ECS world relevant to entity lifecycle: the live handles,
the next fresh handle, and the `entitiesToDelete` list of `world.ts`. -/
structure ECSWorld where
  alive : List Nat
  nextId : Nat
  entitiesToDelete : List Nat

/-- Modelled from the spec: `bitecs` `addEntity` (the package is not under
`src/`) creates a fresh live handle, as wrapped by `createEntity`. -/
def addEntity (w : ECSWorld) : ECSWorld × Nat :=
  (⟨w.alive ++ [w.nextId], w.nextId + 1, w.entitiesToDelete⟩, w.nextId)

/-- Modelled from the spec: `bitecs` `removeEntity` (the package is not under
`src/`) removes the handle from the world's live set. -/
def removeEntity (w : ECSWorld) (e : Nat) : ECSWorld :=
  ⟨w.alive.filter (fun a => a ≠ e), w.nextId, w.entitiesToDelete⟩

/-- Deferred destruction, translated from `scheduleEntityForDeletion` in
`world.ts`: only push the handle onto the pending list. -/
def scheduleEntityForDeletion (w : ECSWorld) (entity : Nat) : ECSWorld :=
  ⟨w.alive, w.nextId, w.entitiesToDelete ++ [entity]⟩

/-- End-of-tick purge, translated from `processEntityDeletions` in
`world.ts`: call `removeEntity` for every scheduled handle, then clear the
pending list. -/
def processEntityDeletions (w : ECSWorld) : ECSWorld :=
  let w2 := w.entitiesToDelete.foldl removeEntity w
  ⟨w2.alive, w2.nextId, []⟩

/-- Pipeline wrapper, translated from `createPipeline` in `world.ts`: run the
systems in order, then process entity deletions at the end of the frame. -/
def createPipeline (systems : List (ECSWorld → ℝ → ECSWorld))
    (w : ECSWorld) (dt : ℝ) : ECSWorld :=
  processEntityDeletions (systems.foldl (fun wo system => system wo dt) w)

/-- Modelled from the spec: `forEach` iteration yields exactly the live
handles. -/
def forEachYields (w : ECSWorld) : List Nat := w.alive

/-- Modelled from the spec: an operation on a handle succeeds on a live
handle and fails with `InvalidHandle` on a purged or never-created one. -/
def operateOn (w : ECSWorld) (e : Nat) : Except ECSError Unit :=
  if e ∈ w.alive then Except.ok () else Except.error ECSError.InvalidHandle

theorem not_mem_removeEntity (w : ECSWorld) (e : Nat) :
    e ∉ (removeEntity w e).alive := by
  unfold removeEntity
  simp [List.mem_filter]

theorem not_mem_removeEntity_other (w : ECSWorld) (e x : Nat)
    (h : x ∉ w.alive) : x ∉ (removeEntity w e).alive := by
  unfold removeEntity
  intro hx
  exact h (List.mem_of_mem_filter hx)

theorem foldl_removeEntity_preserves_absent (l : List Nat) (w : ECSWorld)
    (x : Nat) (h : x ∉ w.alive) : x ∉ (l.foldl removeEntity w).alive := by
  induction l generalizing w with
  | nil => exact h
  | cons a rest ih =>
    simp only [List.foldl]
    exact ih _ (not_mem_removeEntity_other w a x h)

theorem foldl_removeEntity_not_mem (l : List Nat) (w : ECSWorld) (x : Nat)
    (h : x ∈ l) : x ∉ (l.foldl removeEntity w).alive := by
  induction l generalizing w with
  | nil => exact absurd h (List.not_mem_nil x)
  | cons a rest ih =>
    simp only [List.foldl]
    by_cases hx : x ∈ rest
    · exact ih _ hx
    · have hxa : x = a := by
        rcases List.mem_cons.mp h with h1 | h2
        · exact h1
        · exact absurd h2 hx
      subst hxa
      exact foldl_removeEntity_preserves_absent rest _ x
        (not_mem_removeEntity w x)

/-- C9: `scheduleEntityForDeletion` only marks the entity — it is still
yielded by iteration before the purge — and the single `processEntityDeletions`
call removes every marked entity from the live set, empties the pending list,
and any further operation on the purged handle fails with `InvalidHandle`. -/
theorem C9_deferred_destruction (w : ECSWorld) (e : Nat) (h : e ∈ w.alive) :
    e ∈ forEachYields (scheduleEntityForDeletion w e) ∧
    (processEntityDeletions (scheduleEntityForDeletion w e)).entitiesToDelete
      = [] ∧
    (∀ d ∈ (scheduleEntityForDeletion w e).entitiesToDelete,
      d ∉ forEachYields (processEntityDeletions
        (scheduleEntityForDeletion w e))) ∧
    operateOn (processEntityDeletions (scheduleEntityForDeletion w e)) e =
      Except.error ECSError.InvalidHandle := by
  refine ⟨h, rfl, ?_, ?_⟩
  · intro d hd
    exact foldl_removeEntity_not_mem _ _ d hd
  · have hmem : e ∈ (scheduleEntityForDeletion w e).entitiesToDelete := by
      unfold scheduleEntityForDeletion
      simp
    have h2 := foldl_removeEntity_not_mem _ (scheduleEntityForDeletion w e)
      e hmem
    have h3 : e ∉ (processEntityDeletions
        (scheduleEntityForDeletion w e)).alive := fun hcon => h2 hcon
    unfold operateOn
    rw [if_neg h3]

theorem C9_deferred_destruction_witness :
    1 ∈ forEachYields (scheduleEntityForDeletion ⟨[0, 1, 2], 3, []⟩ 1) ∧
    operateOn (processEntityDeletions
      (scheduleEntityForDeletion ⟨[0, 1, 2], 3, []⟩ 1)) 1 =
      Except.error ECSError.InvalidHandle :=
  ⟨(C9_deferred_destruction ⟨[0, 1, 2], 3, []⟩ 1 (by simp)).1,
   (C9_deferred_destruction ⟨[0, 1, 2], 3, []⟩ 1 (by simp)).2.2.2⟩

noncomputable section

/-- Heap of `THREE.Vector3` objects: an allocation counter and a store
mapping references to vector values. Models the JavaScript object graph on
which `resolveCollisions` performs its reads, clones and in-place updates. -/
structure Heap where
  next : Nat
  store : Nat → Vec3

/-- Dereference a vector object. -/
def Heap.read (h : Heap) (r : Nat) : Vec3 := h.store r

/-- Allocate a fresh vector object (`new THREE.Vector3` / `clone()`). -/
def Heap.alloc (h : Heap) (v : Vec3) : Heap × Nat :=
  (⟨h.next + 1, fun r => if r = h.next then v else h.store r⟩, h.next)

/-- Mutate a vector object in place (`sub`, `add`, `copy` on `this`). -/
def Heap.write (h : Heap) (r : Nat) (v : Vec3) : Heap :=
  ⟨h.next, fun r2 => if r2 = r then v else h.store r2⟩

theorem Heap.read_write_self (h : Heap) (r : Nat) (v : Vec3) :
    (h.write r v).read r = v := by
  unfold Heap.write Heap.read
  simp

theorem Heap.read_write_ne (h : Heap) (r r2 : Nat) (v : Vec3) (hne : r2 ≠ r) :
    (h.write r v).read r2 = h.read r2 := by
  unfold Heap.write Heap.read
  simp [hne]

theorem Heap.next_write (h : Heap) (r : Nat) (v : Vec3) :
    (h.write r v).next = h.next := rfl

theorem Heap.read_alloc_lt (h : Heap) (v : Vec3) (r : Nat) (hr : r < h.next) :
    (h.alloc v).1.read r = h.read r := by
  unfold Heap.alloc Heap.read
  simp [Nat.ne_of_lt hr]

theorem Heap.read_alloc_self (h : Heap) (v : Vec3) :
    (h.alloc v).1.read (h.alloc v).2 = v := by
  unfold Heap.alloc Heap.read
  simp

theorem Heap.next_alloc (h : Heap) (v : Vec3) :
    (h.alloc v).1.next = h.next + 1 := rfl

theorem Heap.snd_alloc (h : Heap) (v : Vec3) : (h.alloc v).2 = h.next := rfl

/-- Capsule whose endpoint vectors live on the heap. -/
structure RefCapsule where
  startRef : Nat
  endRef : Nat
  radius : ℝ

/-- AABB whose corner vectors live on the heap. -/
structure RefAABB where
  minRef : Nat
  maxRef : Nat

/-- Read a capsule's current value out of the heap. -/
def readCapsule (h : Heap) (c : RefCapsule) : Capsule :=
  ⟨h.read c.startRef, h.read c.endRef, c.radius⟩

/-- Read a box's current value out of the heap. -/
def readAABB (h : Heap) (b : RefAABB) : AABB :=
  ⟨h.read b.minRef, h.read b.maxRef⟩

/-- Per-collider loop of `resolveCollisions` on the heap: each iteration
reads the capsule and the collider corners and writes the corrected velocity
back into `newVelocity`'s cell (`newVelocity.sub(...)` / `.add(...)` mutate
only that clone). -/
def perBoxPassRef (capsule : RefCapsule) (nref : Nat) (g : Heap)
    (l : List RefAABB) : Heap :=
  l.foldl
    (fun hh c => hh.write nref
      (resolveBoxStep (readCapsule hh capsule) (hh.read nref) (readAABB hh c)))
    g

theorem perBoxPassRef_cons (capsule : RefCapsule) (nref : Nat) (g : Heap)
    (c : RefAABB) (rest : List RefAABB) :
    perBoxPassRef capsule nref g (c :: rest) =
      perBoxPassRef capsule nref
        (g.write nref
          (resolveBoxStep (readCapsule g capsule) (g.read nref) (readAABB g c)))
        rest := rfl

theorem perBoxPass_cons (capsule : Capsule) (v : Vec3) (c : AABB)
    (rest : List AABB) :
    perBoxPass capsule v (c :: rest) =
      perBoxPass capsule (resolveBoxStep capsule v c) rest := rfl

/-- `CollisionSystem.resolveCollisions` on the heap: clone the incoming
velocity into a fresh cell, run the per-collider loop and the corner fallback
mutating only that cell, and return a reference to it. The capsule endpoint
vectors, the collider corner vectors and the incoming velocity vector are
only read. -/
def resolveCollisionsRef (h : Heap) (capsule : RefCapsule) (velocityRef : Nat)
    (colliders : List RefAABB) : Heap × Nat :=
  if colliders.length = 0 then
    h.alloc (h.read velocityRef)
  else
    let a := h.alloc (h.read velocityRef)
    let h2 := perBoxPassRef capsule a.2 a.1 colliders
    let h3 :=
      if 1 < colliders.length ∧ (h2.read a.2).lengthSq < 0.01 then
        h2.write a.2
          (cornerFallback (readCapsule h2 capsule) (h2.read a.2)
            (colliders.map (readAABB h2)))
      else h2
    (h3, a.2)

end

noncomputable section

/-- Frame invariant of the per-collider loop: writing only to the fresh
`newVelocity` cell `n0` leaves every older cell unchanged, and the value
accumulated in `n0` is the pure per-box pass of the values read before the
call. -/
theorem perBoxPassRef_frame (capsule : RefCapsule) (n0 : Nat) (h0 : Heap)
    (hs : capsule.startRef < n0) (he : capsule.endRef < n0) :
    ∀ (l : List RefAABB) (g : Heap),
      g.next = n0 + 1 →
      (∀ r, r < n0 → g.read r = h0.read r) →
      (∀ c ∈ l, c.minRef < n0 ∧ c.maxRef < n0) →
      (perBoxPassRef capsule n0 g l).next = n0 + 1 ∧
      (∀ r, r < n0 → (perBoxPassRef capsule n0 g l).read r = h0.read r) ∧
      (perBoxPassRef capsule n0 g l).read n0 =
        perBoxPass (readCapsule h0 capsule) (g.read n0)
          (l.map (readAABB h0)) := by
  intro l
  induction l with
  | nil =>
    intro g hg hframe _
    exact ⟨hg, hframe, rfl⟩
  | cons c rest ih =>
    intro g hg hframe hc
    have hcap : readCapsule g capsule = readCapsule h0 capsule := by
      unfold readCapsule
      rw [hframe _ hs, hframe _ he]
    have hbox : readAABB g c = readAABB h0 c := by
      obtain ⟨h1b, h2b⟩ := hc c (List.mem_cons_self c rest)
      unfold readAABB
      rw [hframe _ h1b, hframe _ h2b]
    rw [perBoxPassRef_cons]
    have hg1next : (g.write n0
        (resolveBoxStep (readCapsule g capsule) (g.read n0)
          (readAABB g c))).next = n0 + 1 := by
      rw [Heap.next_write]; exact hg
    have hg1frame : ∀ r, r < n0 → (g.write n0
        (resolveBoxStep (readCapsule g capsule) (g.read n0)
          (readAABB g c))).read r = h0.read r := by
      intro r hr
      rw [Heap.read_write_ne _ _ _ _ (Nat.ne_of_lt hr)]
      exact hframe r hr
    obtain ⟨ha, hb2, hval⟩ := ih _ hg1next hg1frame
      (fun b hbm => hc b (List.mem_cons_of_mem c hbm))
    refine ⟨ha, hb2, ?_⟩
    rw [hval, Heap.read_write_self, hcap, hbox, List.map_cons, perBoxPass_cons]

/-- C10: `resolveCollisions` mutates none of its inputs — after the call every
previously allocated vector object (the incoming velocity, the capsule
endpoints, the collider corners) holds exactly its old value — and it returns
a freshly allocated vector holding the pure correction of the values read; in
particular for an empty collider list that fresh vector is a copy equal to the
input velocity. -/
theorem C10_resolve_no_mutation (h : Heap) (capsule : RefCapsule)
    (velocityRef : Nat) (colliders : List RefAABB)
    (hs : capsule.startRef < h.next) (he : capsule.endRef < h.next)
    (hv : velocityRef < h.next)
    (hb : ∀ c ∈ colliders, c.minRef < h.next ∧ c.maxRef < h.next) :
    (∀ r, r < h.next →
      (resolveCollisionsRef h capsule velocityRef colliders).1.read r =
        h.read r) ∧
    h.next ≤ (resolveCollisionsRef h capsule velocityRef colliders).2 ∧
    (resolveCollisionsRef h capsule velocityRef colliders).1.read
        (resolveCollisionsRef h capsule velocityRef colliders).2 =
      resolveCollisions (readCapsule h capsule) (h.read velocityRef)
        (colliders.map (readAABB h)) := by
  cases colliders with
  | nil =>
    refine ⟨?_, ?_, ?_⟩
    · intro r hr
      show (h.alloc (h.read velocityRef)).1.read r = h.read r
      exact Heap.read_alloc_lt h _ r hr
    · show h.next ≤ (h.alloc (h.read velocityRef)).2
      rw [Heap.snd_alloc]
    · show (h.alloc (h.read velocityRef)).1.read
          (h.alloc (h.read velocityRef)).2 =
        resolveCollisions (readCapsule h capsule) (h.read velocityRef) []
      rw [Heap.read_alloc_self]
      rfl
  | cons c rest =>
    have hne : ¬ ((c :: rest) : List RefAABB).length = 0 := by simp
    have hrw : resolveCollisionsRef h capsule velocityRef (c :: rest) =
        (if 1 < (c :: rest).length ∧
            ((perBoxPassRef capsule (h.alloc (h.read velocityRef)).2
              (h.alloc (h.read velocityRef)).1 (c :: rest)).read
                (h.alloc (h.read velocityRef)).2).lengthSq < 0.01 then
          (perBoxPassRef capsule (h.alloc (h.read velocityRef)).2
              (h.alloc (h.read velocityRef)).1 (c :: rest)).write
            (h.alloc (h.read velocityRef)).2
            (cornerFallback
              (readCapsule (perBoxPassRef capsule
                (h.alloc (h.read velocityRef)).2
                (h.alloc (h.read velocityRef)).1 (c :: rest)) capsule)
              ((perBoxPassRef capsule (h.alloc (h.read velocityRef)).2
                (h.alloc (h.read velocityRef)).1 (c :: rest)).read
                  (h.alloc (h.read velocityRef)).2)
              ((c :: rest).map (readAABB (perBoxPassRef capsule
                (h.alloc (h.read velocityRef)).2
                (h.alloc (h.read velocityRef)).1 (c :: rest)))))
        else
          perBoxPassRef capsule (h.alloc (h.read velocityRef)).2
            (h.alloc (h.read velocityRef)).1 (c :: rest),
        (h.alloc (h.read velocityRef)).2) := by
      unfold resolveCollisionsRef
      rw [if_neg hne]
    rw [hrw, Heap.snd_alloc]
    obtain ⟨hn2, hfr2, hval2⟩ := perBoxPassRef_frame capsule h.next h hs he
      (c :: rest) (h.alloc (h.read velocityRef)).1 (Heap.next_alloc h _)
      (fun r hr => Heap.read_alloc_lt h _ r hr) hb
    have hreadbase : (h.alloc (h.read velocityRef)).1.read h.next =
        h.read velocityRef := by
      have hr := Heap.read_alloc_self h (h.read velocityRef)
      rwa [Heap.snd_alloc] at hr
    rw [hreadbase] at hval2
    have hpurelen : ¬ (((c :: rest).map (readAABB h)).length = 0) := by simp
    have hpg : (1 < ((c :: rest).map (readAABB h)).length ∧
          (perBoxPass (readCapsule h capsule) (h.read velocityRef)
            ((c :: rest).map (readAABB h))).lengthSq < 0.01) ↔
        (1 < ((c :: rest) : List RefAABB).length ∧
          ((perBoxPassRef capsule h.next (h.alloc (h.read velocityRef)).1
            (c :: rest)).read h.next).lengthSq < 0.01) := by
      rw [List.length_map, hval2]
    have hpure : resolveCollisions (readCapsule h capsule)
        (h.read velocityRef) ((c :: rest).map (readAABB h)) =
        (if 1 < ((c :: rest) : List RefAABB).length ∧
            ((perBoxPassRef capsule h.next (h.alloc (h.read velocityRef)).1
              (c :: rest)).read h.next).lengthSq < 0.01 then
          cornerFallback (readCapsule h capsule)
            (perBoxPass (readCapsule h capsule) (h.read velocityRef)
              ((c :: rest).map (readAABB h)))
            ((c :: rest).map (readAABB h))
        else
          perBoxPass (readCapsule h capsule) (h.read velocityRef)
            ((c :: rest).map (readAABB h))) := by
      unfold resolveCollisions
      rw [if_neg hpurelen]
      by_cases hg : 1 < ((c :: rest) : List RefAABB).length ∧
          ((perBoxPassRef capsule h.next (h.alloc (h.read velocityRef)).1
            (c :: rest)).read h.next).lengthSq < 0.01
      · rw [if_pos (hpg.mpr hg), if_pos hg]
      · rw [if_neg (fun hx => hg (hpg.mp hx)), if_neg hg]
    have hcap2 : readCapsule (perBoxPassRef capsule h.next
        (h.alloc (h.read velocityRef)).1 (c :: rest)) capsule =
        readCapsule h capsule := by
      unfold readCapsule
      rw [hfr2 _ hs, hfr2 _ he]
    have hmap2 : (c :: rest).map (readAABB (perBoxPassRef capsule h.next
        (h.alloc (h.read velocityRef)).1 (c :: rest))) =
        (c :: rest).map (readAABB h) := by
      apply List.map_congr_left
      intro b hbm
      obtain ⟨h1b, h2b⟩ := hb b hbm
      unfold readAABB
      rw [hfr2 _ h1b, hfr2 _ h2b]
    by_cases hguard : 1 < ((c :: rest) : List RefAABB).length ∧
        ((perBoxPassRef capsule h.next (h.alloc (h.read velocityRef)).1
          (c :: rest)).read h.next).lengthSq < 0.01
    · rw [if_pos hguard]
      refine ⟨?_, le_refl _, ?_⟩
      · intro r hr
        rw [Heap.read_write_ne _ _ _ _ (Nat.ne_of_lt hr)]
        exact hfr2 r hr
      · rw [Heap.read_write_self, hcap2, hmap2, hval2, hpure, if_pos hguard]
    · rw [if_neg hguard]
      refine ⟨hfr2, le_refl _, ?_⟩
      rw [hval2, hpure, if_neg hguard]

/-- Demonstration heap for the frame theorem: cell 0 holds the velocity
(0, 0, 5) and cell 1 the shared capsule endpoint (0, 1, 0). -/
def demoHeap : Heap := ⟨2, fun r => if r = 0 then ⟨0, 0, 5⟩ else ⟨0, 1, 0⟩⟩

/-- Capsule whose endpoints both live in cell 1 of `demoHeap`. -/
def demoCapsRef : RefCapsule := ⟨1, 1, 0.4⟩

theorem C10_resolve_no_mutation_witness :
    (resolveCollisionsRef demoHeap demoCapsRef 0 []).1.read 0 =
      demoHeap.read 0 ∧
    demoHeap.next ≤ (resolveCollisionsRef demoHeap demoCapsRef 0 []).2 ∧
    (resolveCollisionsRef demoHeap demoCapsRef 0 []).1.read
        (resolveCollisionsRef demoHeap demoCapsRef 0 []).2 =
      resolveCollisions (readCapsule demoHeap demoCapsRef)
        (demoHeap.read 0) [] :=
  ⟨(C10_resolve_no_mutation demoHeap demoCapsRef 0 []
      (by norm_num [demoCapsRef, demoHeap]) (by norm_num [demoCapsRef, demoHeap])
      (by norm_num [demoHeap]) (by simp)).1 0 (by norm_num [demoHeap]),
   (C10_resolve_no_mutation demoHeap demoCapsRef 0 []
      (by norm_num [demoCapsRef, demoHeap]) (by norm_num [demoCapsRef, demoHeap])
      (by norm_num [demoHeap]) (by simp)).2.1,
   (C10_resolve_no_mutation demoHeap demoCapsRef 0 []
      (by norm_num [demoCapsRef, demoHeap]) (by norm_num [demoCapsRef, demoHeap])
      (by norm_num [demoHeap]) (by simp)).2.2⟩

end
